import Mathlib

/-!
Verification of the collection synchronization engine of a spreadsheet-backed
document store (`google-sheet-db`).  The definitions below are a shallow
embedding of `src/google-sheet-db.ts` (second, `initialized`-flag revision):
pure helpers become Lean functions, the stateful `GoogleSheetDb` class becomes
explicit state passing over a `DbState`, remote RPCs of the external
`GoogleSheet` grid client are an oracle (`Env`) plus an emitted event trace,
and thrown JS errors become `Except.error`.
-/

set_option autoImplicit false

namespace GoogleSheetDb

/-- The `AZ` letter table of `getColumnByIndex`. -/
def AZ : List String :=
  ["A", "B", "C", "D", "E", "F", "G", "H", "I", "J", "K", "L", "M",
   "N", "O", "P", "Q", "R", "S", "T", "U", "V", "W", "X", "Y", "Z"]

/-- Embedding of `getColumnByIndex`.  `index <= 0` throws `'Index out range'`.
For `index <= 26` it returns `AZ[index - 1]`.  Otherwise it returns
`AZ[b] + AZ[a]` with `a = (index - 1) % 26` and
`b = Math.floor((index - 1) / 26) - 1`; a JS out-of-bounds read yields
`undefined`, which string concatenation renders as `"undefined"`, so the
out-of-bounds default of `List.getD` is the string `"undefined"`. -/
def getColumnByIndex (index : Int) : Except String String :=
  if index ≤ 0 then
    .error "Index out range"
  else if index ≤ 26 then
    .ok (AZ.getD (index - 1).toNat "undefined")
  else
    let n := (index - 1).toNat
    let a := n % 26
    let b := n / 26 - 1
    .ok (AZ.getD b "undefined" ++ AZ.getD a "undefined")

/-- Single letter of a bijective base-26 digit (`0 ↦ "A"`, …, `25 ↦ "Z"`). -/
def bijLetter (d : Nat) : String := AZ.getD d "undefined"

/-- Modelled from the spec: the 1-based bijective base-26 numeral
(`1 ↦ "A"`, …, `26 ↦ "Z"`, `27 ↦ "AA"`, `702 ↦ "ZZ"`).  Structural fuel
recursion (fuel `n` is always sufficient since the argument shrinks by a
factor of 26 each step). -/
def bijBase26Aux : Nat → Nat → String
  | 0, _ => ""
  | _, 0 => ""
  | fuel + 1, n + 1 => bijBase26Aux fuel (n / 26) ++ bijLetter (n % 26)

/-- Modelled from the spec: the bijective base-26 numeral of `n ≥ 1`. -/
def specBijectiveBase26 (n : Nat) : String := bijBase26Aux n n

/-- Decode a letter string back to its bijective base-26 value
(left inverse of `specBijectiveBase26` on the encodable range). -/
def fromBijBase26 (s : String) : Nat :=
  s.data.foldl (fun acc c => acc * 26 + (c.toNat - 64)) 0

/-- A cell value.  `some s` is a string cell; `none` is JS `undefined`
(an absent cell or a sparse-array hole — the two are conflated, which is
observationally equivalent for every operation modelled here). -/
abbrev CellValue := Option String

/-- Lookup in a JS-object-style association list (`column_map[k]`). -/
def assocFind (m : List (String × Nat)) (k : String) : Option Nat :=
  (m.find? (fun p => p.1 == k)).map (fun p => p.2)

/-- Key assignment on a JS-object-style association list
(`column_map[k] = { index: v }`): overwrite in place, or append. -/
def assocSet (m : List (String × Nat)) (k : String) (v : Nat) :
    List (String × Nat) :=
  if (m.find? (fun p => p.1 == k)).isSome then
    m.map (fun p => if p.1 == k then (k, v) else p)
  else m ++ [(k, v)]

/-- Lookup of a record field (`x[y]`). -/
def fieldFind (fs : List (String × CellValue)) (k : String) : Option CellValue :=
  (fs.find? (fun p => p.1 == k)).map (fun p => p.2)

/-- Field assignment on a record object (`item[key] = v`). -/
def fieldSet (fs : List (String × CellValue)) (k : String) (v : CellValue) :
    List (String × CellValue) :=
  if (fs.find? (fun p => p.1 == k)).isSome then
    fs.map (fun p => if p.1 == k then (k, v) else p)
  else fs ++ [(k, v)]

/-- JS sparse-array element assignment `l[i] = v`: in-bounds writes set the
slot, out-of-bounds writes extend the array with holes up to index `i`. -/
def jsSparseSet {α : Type} (l : List (Option α)) (i : Nat) (v : Option α) :
    List (Option α) :=
  if i < l.length then l.set i v
  else l ++ List.replicate (i - l.length) none ++ [v]

/-- JS array element assignment at a possibly negative (integer) index:
a negative index is a string-keyed property assignment which leaves the
array's elements and length unchanged; a nonnegative one is `jsSparseSet`. -/
def jsArraySetInt {α : Type} (l : List (Option α)) (k : Int) (v : α) :
    List (Option α) :=
  if k < 0 then l
  else jsSparseSet l k.toNat (some v)

/-- The slice of `ISheetProperty` the engine consumes (`title`, `sheetId` and
the `gridProperties` row/column counts). -/
structure SheetProperty where
  title : String
  sheetId : Int
  rowCount : Nat
  columnCount : Nat
deriving DecidableEq, Repr

/-- An `IRecord`: arbitrary non-reserved fields plus the engine-managed
`_index` and `_id` attributes (`none` models an absent / non-numeric value;
the source always filters the reserved keys out of `Object.keys`, which the
separate-field representation realises by construction, and the filter is
still applied literally wherever the source applies it). -/
structure Record where
  fields : List (String × CellValue) := []
  _index : Option Int := none
  _id : Option String := none
deriving DecidableEq, Repr

/-- An `ICollection`: name, backing sheet handle, column list, column map,
row cache and the lazily-initialized flag (absent = `undefined` = `false` in
the source's truthiness test). -/
structure Collection where
  name : String
  sheet : Option SheetProperty := none
  columns : List String := []
  column_map : List (String × Nat) := []
  data : List (Option Record) := []
  initialized : Bool := false
deriving DecidableEq, Repr

instance : Inhabited Collection := ⟨{ name := "" }⟩

/-- The `GoogleSheetDb` instance state: the registry (`this.collections`)
plus the counter driving the modelled `uuid/v4` fresh-id sequence. -/
structure DbState where
  collections : List Collection := []
  uuidCounter : Nat := 0
deriving DecidableEq, Repr

/-- The remote RPCs of the external `GoogleSheet` grid client that the
engine can issue. -/
inductive RemoteCall where
  | createSheet (title : String)
  | applyHeaderStyle (sheetId : Int)
  | readData (range : String)
  | writeData (range : String) (values : List (List CellValue))
  | removeRows (sheetId : Int) (startIndex count : Int)
deriving DecidableEq, Repr

/-- One step of an operation's observable trace: a remote call, or a local
mutation of some collection's row cache. -/
inductive Event where
  | remote (call : RemoteCall)
  | cacheMutation (collectionName : String)
deriving DecidableEq, Repr

/-- Oracle for the external grid client's responses: the sheet list returned
by `createSheet`, and the `values` rows returned by `readData` (an empty list
models the API omitting `values` for an empty range). -/
structure Env where
  createSheetResult : String → List SheetProperty
  readDataResult : String → List (List String)

/-- Outcome of one engine operation: post state, emitted event trace, and the
JS return value or thrown error. -/
structure OpResult (α : Type) where
  state : DbState
  events : List Event
  result : Except String α

/-- The external `uuid/v4` generator, modelled as an injective non-empty
fresh-id sequence drawn from the counter threaded through `DbState`. -/
def uuidString (n : Nat) : String := "uuid-" ++ toString n

/-- `defaultPredicateFn`: the match-all predicate used when `find` is given
no predicate. -/
def defaultPredicateFn : Record → Nat → List (Option Record) → Bool :=
  fun _ _ _ => true

/-- The header-row loop of `getCollectionDataBySheet`: blank header cells
become synthetic `_column_<offset>` names; `columnMap[name] = { index: i }`. -/
def buildHeader (headerRow : List String) : List String × List (String × Nat) :=
  headerRow.enum.foldl
    (fun acc p =>
      let nm := if p.2 == "" then "_column_" ++ toString p.1 else p.2
      (acc.1 ++ [nm], assocSet acc.2 nm p.1))
    ([], [])

/-- The per-row field loop: `item[columns[i]] = x[columnMap[columns[i]].index]`
(a read past the row's end is `undefined`). -/
def buildRecordFields (columns : List String) (cmap : List (String × Nat))
    (row : List String) : List (String × CellValue) :=
  columns.foldl
    (fun fs col =>
      let v : CellValue :=
        match assocFind cmap col with
        | some j => row.get? j
        | none => none
      fieldSet fs col v)
    []

/-- The data-row loop of `getCollectionDataBySheet`: each data row becomes a
record stamped with `_index` = 0-based row position and a fresh `_id`. -/
def buildData (columns : List String) (cmap : List (String × Nat)) :
    List (List String) → Nat → Nat → List (Option Record) × Nat
  | [], _, ctr => ([], ctr)
  | row :: rest, i, ctr =>
    let item : Record :=
      { fields := buildRecordFields columns cmap row,
        _index := some (Int.ofNat i), _id := some (uuidString ctr) }
    let (tail, ctr') := buildData columns cmap rest (i + 1) (ctr + 1)
    (some item :: tail, ctr')

/-- Embedding of `getCollectionDataBySheet`: reads the full used range
(bounded by the sheet's declared row/column counts; a zero count skips the
read and yields an empty initialized collection), takes row 1 as the header
and maps the remaining rows to records.  A missing `values` response crashes
on `rows[0]` (modelled as a thrown `TypeError`). -/
def getCollectionDataBySheet (env : Env) (sheet : SheetProperty) (ctr : Nat) :
    Except String (Collection × Nat) × List Event :=
  if sheet.rowCount ≠ 0 ∧ sheet.columnCount ≠ 0 then
    match getColumnByIndex 1, getColumnByIndex (Int.ofNat sheet.columnCount) with
    | .ok cs, .ok ce =>
      let range := sheet.title ++ "!" ++ (cs ++ "1") ++ ":"
        ++ (ce ++ toString sheet.rowCount)
      match env.readDataResult range with
      | [] =>
        (.error "TypeError: cannot read row 0 of undefined",
         [.remote (.readData range)])
      | headerRow :: dataRows =>
        let (columns, cmap) := buildHeader headerRow
        let (data, ctr') := buildData columns cmap dataRows 0 ctr
        (.ok ({ name := sheet.title, sheet := some sheet, columns := columns,
                column_map := cmap, data := data,
                initialized := true }, ctr'),
         [.remote (.readData range)])
    | .error e, _ => (.error e, [])
    | _, .error e => (.error e, [])
  else
    (.ok ({ name := sheet.title, sheet := some sheet, columns := [],
            column_map := [], data := [], initialized := true }, ctr), [])

/-- Embedding of `initCollection`: a no-op on an already-initialized
collection, otherwise materializes it via `getCollectionDataBySheet` and
copies columns, column map and data over, setting `initialized`. -/
def initCollection (env : Env) (c : Collection) (ctr : Nat) :
    Except String (Collection × Nat) × List Event :=
  if c.initialized then (.ok (c, ctr), [])
  else
    match c.sheet with
    | none => (.error "TypeError: cannot read gridProperties of null", [])
    | some sheet =>
      match getCollectionDataBySheet env sheet ctr with
      | (.error e, ev) => (.error e, ev)
      | (.ok (fresh, ctr'), ev) =>
        (.ok ({ c with columns := fresh.columns,
                       column_map := fresh.column_map,
                       data := fresh.data, initialized := true }, ctr'), ev)

/-- The sheet-or-init step of `insertMany`: with no backing sheet, run the
private `createSheet` (create RPC, locate the sheet by title, header-style
it); otherwise materialize via `initCollection`. -/
def ensureSheetOrInit (env : Env) (c : Collection) (ctr : Nat) :
    Except String (Collection × Nat) × List Event :=
  match c.sheet with
  | none =>
    match (env.createSheetResult c.name).find? (fun x => x.title == c.name) with
    | none =>
      (.error "TypeError: cannot read sheetId of undefined",
       [.remote (.createSheet c.name)])
    | some s =>
      (.ok ({ c with sheet := some s }, ctr),
       [.remote (.createSheet c.name), .remote (.applyHeaderStyle s.sheetId)])
  | some _ => initCollection env c ctr

/-- One iteration of the `rColumns.forEach` loop of `insertMany`/`update`:
allocate a column-map entry for an unseen field (setting the header-resync
flag) and write the record's value into the sparse row vector at the
column's offset. -/
def processFieldStep (x : Record) (acc : Collection × Bool × List CellValue)
    (y : String) : Collection × Bool × List CellValue :=
  let c := acc.1
  let flag := acc.2.1
  let value := acc.2.2
  let next :=
    if (assocFind c.column_map y).isSome then (c, flag)
    else ({ c with column_map := assocSet c.column_map y c.columns.length,
                   columns := c.columns ++ [y] }, true)
  let idx := (assocFind next.1.column_map y).getD 0
  let v := (fieldFind x.fields y).getD none
  (next.1, next.2, jsSparseSet value idx v)

/-- The `rColumns.forEach` loop over one record's non-reserved field names. -/
def processFieldsAux (x : Record) :
    Collection × Bool × List CellValue → List String →
      Collection × Bool × List CellValue
  | acc, [] => acc
  | acc, y :: rest => processFieldsAux x (processFieldStep x acc y) rest

/-- The per-record body of the `records.forEach` loop of `insertMany` (and,
with the single given record, of `update`): allocate a column-map entry for
each unseen non-reserved field and project the record's values into a sparse
row vector positioned by column offset. -/
def processOneRecord (c : Collection) (flag : Bool) (x : Record) :
    Collection × Bool × List CellValue :=
  let rColumns := (x.fields.map (fun p => p.1)).filter
    (fun y => y != "_index" && y != "_id")
  processFieldsAux x (c, flag, []) rColumns

/-- The `records.forEach` loop of `insertMany`, accumulator-explicit. -/
def processRecordsAux :
    Collection × Bool × List (List CellValue) → List Record →
      Collection × Bool × List (List CellValue)
  | acc, [] => acc
  | acc, x :: rest =>
    let r := processOneRecord acc.1 acc.2.1 x
    processRecordsAux (r.1, r.2.1, acc.2.2 ++ [r.2.2]) rest

/-- The whole `records.forEach` loop of `insertMany`. -/
def processRecords (c : Collection) (records : List Record) :
    Collection × Bool × List (List CellValue) :=
  processRecordsAux (c, false, []) records

/-- Embedding of `syncHeader`: the full-width rewrite of header row 1 with
synthetic `_column_` names written back as empty strings. -/
def syncHeaderCall (c : Collection) : Except String (List Event) :=
  match getColumnByIndex (Int.ofNat c.columns.length) with
  | .error e => .error e
  | .ok ce =>
    let values := [c.columns.map (fun x =>
      if x != "" && x.startsWith "_column_" then "" else x)]
    .ok [.remote (.writeData (c.name ++ "!" ++ "A1" ++ ":" ++ (ce ++ "1"))
          (values.map (fun row => row.map some)))]

/-- The post-write stamping loop of `insertMany`:
`item._index = collection.data.length + i; item._id = uuid()`. -/
def stampRecords : List Record → Nat → Nat → List Record × Nat
  | [], _, ctr => ([], ctr)
  | x :: rest, base, ctr =>
    let x' := { x with _index := some (Int.ofNat base),
                       _id := some (uuidString ctr) }
    let (tail, ctr') := stampRecords rest (base + 1) (ctr + 1)
    (x' :: tail, ctr')

/-- Write the mutated collection object back into the registry slot it was
found at (`none` = the object was never in the registry, so the registry is
untouched — exactly the source's aliasing behaviour). -/
def commitCollection (colls : List Collection) (pos : Option Nat)
    (c : Collection) : List Collection :=
  match pos with
  | some p => colls.set p c
  | none => colls

/-- `this.collections.find(x => x.name === collectionName)`, additionally
reporting the registry position of the found object (the position stands in
for the JS object reference when writing mutations back). -/
def findCollection : List Collection → String → Option (Nat × Collection)
  | [], _ => none
  | c :: rest, nm =>
    if c.name == nm then some (0, c)
    else (findCollection rest nm).map (fun q => (q.1 + 1, q.2))

/-- Everything `insertMany` does after the registry lookup, parametrized by
the lookup outcome (`pos` = registry slot of the found object, `c0` = the
found object or the fresh local shell): sheet creation or materialization,
column allocation + row projection, range computation, optional header
resync, data write, stamping, cache append. -/
def insertManyCore (env : Env) (st : DbState) (pos : Option Nat)
    (c0 : Collection) (records : List Record) : OpResult Nat :=
  match ensureSheetOrInit env c0 st.uuidCounter with
  | (.error e, ev1) => ⟨st, ev1, .error e⟩
  | (.ok (c1, ctr1), ev1) =>
    let pr := processRecords c1 records
    let c2 := pr.1
    let flag := pr.2.1
    let values := pr.2.2
    match getColumnByIndex (Int.ofNat c2.columns.length) with
    | .error e =>
      ⟨{ collections := commitCollection st.collections pos c2,
         uuidCounter := ctr1 }, ev1, .error e⟩
    | .ok ce =>
      let range := c2.name ++ "!" ++ ("A" ++ toString (c2.data.length + 2))
        ++ ":" ++ (ce ++ toString (values.length + c2.data.length + 1))
      match (if flag then syncHeaderCall c2 else .ok []) with
      | .error e =>
        ⟨{ collections := commitCollection st.collections pos c2,
           uuidCounter := ctr1 }, ev1, .error e⟩
      | .ok hdrEvents =>
        let sp := stampRecords records c2.data.length ctr1
        let c3 := { c2 with data := c2.data ++ sp.1.map some }
        ⟨{ collections := commitCollection st.collections pos c3,
           uuidCounter := sp.2 },
         ev1 ++ hdrEvents
           ++ [.remote (.writeData range values), .cacheMutation c2.name],
         .ok values.length⟩

/-- Embedding of `insertMany`.  Empty input returns 0 at once.  The collection
object is looked up by name; a missing one is a fresh local shell which is
NEVER pushed into the registry (the source has no `collections.push`). -/
def insertManyOp (env : Env) (st : DbState) (collectionName : String)
    (records : List Record) : OpResult Nat :=
  if records.length = 0 then ⟨st, [], .ok 0⟩
  else
    match findCollection st.collections collectionName with
    | some (p, c) => insertManyCore env st (some p) c records
    | none =>
      insertManyCore env st none
        { name := collectionName, sheet := none, columns := [],
          column_map := [], data := [], initialized := false } records

/-- Embedding of `insert`: runs `insertMany` on the one-element list and —
having no `return` statement in the source — returns `undefined` (`none`),
not the row count. -/
def insertOp (env : Env) (st : DbState) (collectionName : String)
    (record : Record) : OpResult (Option Nat) :=
  let res := insertManyOp env st collectionName [record]
  ⟨res.state, res.events, res.result.map (fun _ => (none : Option Nat))⟩

/-- `Array.prototype.filter` over a possibly sparse array: holes are skipped,
the predicate receives (value, index, array). -/
def jsFilter (l : List (Option Record))
    (pred : Record → Nat → List (Option Record) → Bool) : List Record :=
  l.enum.filterMap (fun p =>
    match p.2 with
    | none => none
    | some x => if pred x p.1 l then some x else none)

/-- Embedding of `find`: a missing collection yields `[]` with no remote I/O;
otherwise materialize, then filter the row cache with the given predicate
(or the match-all default). -/
def findOp (env : Env) (st : DbState) (collectionName : String)
    (pred : Option (Record → Nat → List (Option Record) → Bool)) :
    OpResult (List Record) :=
  match findCollection st.collections collectionName with
  | none => ⟨st, [], .ok []⟩
  | some (p, c) =>
    match initCollection env c st.uuidCounter with
    | (.error e, ev) => ⟨st, ev, .error e⟩
    | (.ok (c1, ctr1), ev) =>
      ⟨{ collections := st.collections.set p c1, uuidCounter := ctr1 }, ev,
       .ok (jsFilter c1.data (pred.getD defaultPredicateFn))⟩

/-- Embedding of `findOne`: the first element of the `find` result
(`undefined` = `none` when there is none). -/
def findOneOp (env : Env) (st : DbState) (collectionName : String)
    (pred : Option (Record → Nat → List (Option Record) → Bool)) :
    OpResult (Option Record) :=
  let r := findOp env st collectionName pred
  ⟨r.state, r.events, r.result.map (fun l => l.head?)⟩

/-- The descending removal loop of `delete`: one `removeRows` RPC per matched
position (highest first), each followed by `this.collections.splice(index, 1)`
— a splice of the REGISTRY list, not of the row cache (the source's bug,
reproduced).  Tracks where the found collection object ends up. -/
def spliceLoop (colls : List Collection) (pos : Option Nat) (sheetId : Int) :
    List Nat → List Collection × Option Nat × List Event
  | [] => (colls, pos, [])
  | idx :: rest =>
    let ev : Event := .remote (.removeRows sheetId (Int.ofNat idx + 1) 1)
    let colls' := if idx < colls.length then colls.eraseIdx idx else colls
    let pos' : Option Nat :=
      match pos with
      | some p =>
        if idx < colls.length then
          (if idx < p then some (p - 1) else if idx = p then none else some p)
        else some p
      | none => none
    let r := spliceLoop colls' pos' sheetId rest
    (r.1, r.2.1, ev :: r.2.2)

/-- The final `collection.data.forEach` of `delete`: every record still in
the row cache (holes skipped) is re-stamped with `_index` = its array index
and a fresh `_id`. -/
def restampData : List (Option Record) → Nat → Nat → List (Option Record) × Nat
  | [], _, ctr => ([], ctr)
  | none :: rest, i, ctr =>
    let r := restampData rest (i + 1) ctr
    (none :: r.1, r.2)
  | some x :: rest, i, ctr =>
    let x' := { x with _index := some (Int.ofNat i),
                       _id := some (uuidString ctr) }
    let r := restampData rest (i + 1) (ctr + 1)
    (some x' :: r.1, r.2)

/-- Embedding of `delete`: a missing collection returns 0 with no I/O;
otherwise materialize, collect matching positions, run the descending
remove/splice loop, then re-stamp the (never shortened!) row cache and return
the number of matches. -/
def deleteOp (env : Env) (st : DbState) (collectionName : String)
    (pred : Record → Nat → List (Option Record) → Bool) : OpResult Nat :=
  match findCollection st.collections collectionName with
  | none => ⟨st, [], .ok 0⟩
  | some (p, c) =>
    match initCollection env c st.uuidCounter with
    | (.error e, ev) => ⟨st, ev, .error e⟩
    | (.ok (c1, ctr1), ev) =>
      let colls1 := st.collections.set p c1
      let deleteIndex := c1.data.enum.filterMap (fun q =>
        match q.2 with
        | none => none
        | some x => if pred x q.1 c1.data then some q.1 else none)
      match deleteIndex, c1.sheet with
      | _ :: _, none =>
        ⟨{ collections := colls1, uuidCounter := ctr1 }, ev,
         .error "TypeError: cannot read sheetId of null"⟩
      | _, _ =>
        let sheetId := (c1.sheet.map (fun s => s.sheetId)).getD 0
        let sl := spliceLoop colls1 (some p) sheetId deleteIndex.reverse
        let rs := restampData c1.data 0 ctr1
        let c2 := { c1 with data := rs.1 }
        ⟨{ collections := commitCollection sl.1 sl.2.1 c2, uuidCounter := rs.2 },
         ev ++ sl.2.2 ++ [.cacheMutation c1.name], .ok deleteIndex.length⟩

/-- Embedding of `update`: guards (missing collection, null record,
non-numeric `_index`) throw before any I/O or mutation; then materialize,
allocate columns from the record's fields, compute the one-row range at
`_index + 2`, optionally resync the header, write, and replace the row-cache
slot at `_index` wholesale (JS array-assignment semantics, no bounds check). -/
def updateOp (env : Env) (st : DbState) (collectionName : String)
    (record : Option Record) : OpResult Bool :=
  match findCollection st.collections collectionName with
  | none => ⟨st, [], .error "Collection not exists"⟩
  | some (p, c) =>
    match record with
    | none => ⟨st, [], .error "Invalid record"⟩
    | some r =>
      match r._index with
      | none => ⟨st, [], .error "Invalid index"⟩
      | some k =>
        match initCollection env c st.uuidCounter with
        | (.error e, ev) => ⟨st, ev, .error e⟩
        | (.ok (c1, ctr1), ev) =>
          let pr := processOneRecord c1 false r
          let c2 := pr.1
          let flag := pr.2.1
          let values := [pr.2.2]
          match getColumnByIndex (Int.ofNat c2.columns.length) with
          | .error e =>
            ⟨{ collections := st.collections.set p c2, uuidCounter := ctr1 },
             ev, .error e⟩
          | .ok ce =>
            let range := c2.name ++ "!" ++ ("A" ++ toString (k + 2)) ++ ":"
              ++ (ce ++ toString (1 + k + 1))
            match (if flag then syncHeaderCall c2 else .ok []) with
            | .error e =>
              ⟨{ collections := st.collections.set p c2, uuidCounter := ctr1 },
               ev, .error e⟩
            | .ok hdrEvents =>
              let c3 := { c2 with data := jsArraySetInt c2.data k r }
              ⟨{ collections := st.collections.set p c3, uuidCounter := ctr1 },
               ev ++ hdrEvents
                 ++ [.remote (.writeData range values), .cacheMutation c2.name],
               .ok true⟩

/-- Embedding of `refreshRecord`: same guards as `update`, then materialize,
re-read the one row at `_index + 2` across the full column width, and
overwrite every non-reserved field present on the caller's record with the
freshly read value (fields not in the column index become `undefined`).
The caller's mutated record is returned for observability. -/
def refreshRecordOp (env : Env) (st : DbState) (collectionName : String)
    (record : Option Record) : OpResult Record :=
  match findCollection st.collections collectionName with
  | none => ⟨st, [], .error "Collection not exists"⟩
  | some (p, c) =>
    match record with
    | none => ⟨st, [], .error "Invalid record"⟩
    | some r =>
      match r._index with
      | none => ⟨st, [], .error "Invalid index"⟩
      | some k =>
        match initCollection env c st.uuidCounter with
        | (.error e, ev) => ⟨st, ev, .error e⟩
        | (.ok (c1, ctr1), ev) =>
          let st1 : DbState :=
            { collections := st.collections.set p c1, uuidCounter := ctr1 }
          match getColumnByIndex (Int.ofNat c1.columns.length) with
          | .error e => ⟨st1, ev, .error e⟩
          | .ok ce =>
            let range := c1.name ++ "!" ++ ("A" ++ toString (k + 2)) ++ ":"
              ++ (ce ++ toString (1 + k + 1))
            match env.readDataResult range, c1.columns with
            | [], _ :: _ =>
              ⟨st1, ev ++ [.remote (.readData range)],
               .error "TypeError: cannot read cell of undefined"⟩
            | rows, _ =>
              let rowItem := rows.headD []
              let itemFields := buildRecordFields c1.columns c1.column_map rowItem
              let newFields := r.fields.map (fun q =>
                if q.1 == "_index" || q.1 == "_id" then q
                else (q.1, (fieldFind itemFields q.1).getD none))
              ⟨st1, ev ++ [.remote (.readData range)],
               .ok { r with fields := newFields }⟩

end GoogleSheetDb

open GoogleSheetDb

instance instDecEqExcept {ε α : Type} [DecidableEq ε] [DecidableEq α] :
    DecidableEq (Except ε α) := fun x y =>
  match x, y with
  | .ok a, .ok b =>
      if h : a = b then isTrue (by rw [h]) else isFalse (by simp [h])
  | .error a, .error b =>
      if h : a = b then isTrue (by rw [h]) else isFalse (by simp [h])
  | .ok _, .error _ => isFalse (by simp)
  | .error _, .ok _ => isFalse (by simp)

set_option maxRecDepth 4000 in
/-- Evaluation lemma: on `1 ≤ k ≤ 702` the code's letter encoding agrees with
the spec's bijective base-26 numeral. -/
theorem getColumnByIndex_agrees_below_703 :
    ∀ k : Nat, k < 703 → 0 < k →
      getColumnByIndex (Int.ofNat k) = .ok (specBijectiveBase26 k) := by
  decide

set_option maxRecDepth 4000 in
/-- Decode is a left inverse of the bijective base-26 numeral on `1 ≤ k ≤ 702`. -/
theorem fromBijBase26_leftInverse :
    ∀ k : Nat, k < 703 → 0 < k →
      fromBijBase26 (specBijectiveBase26 k) = k := by
  decide

/-- C1 (amended).  For `n ≤ 0`, `getColumnByIndex` fails with the
`Index out range` error.  For `1 ≤ n ≤ 702` it returns the 1-based bijective
base-26 numeral of `n` and is injective on that range.  (The original claim,
over all `n ≥ 1`, is false: see the counterexample at `703`/`729`.) -/
theorem c1_getColumnByIndex_bijective_base26 (n : Int) :
    (n ≤ 0 → getColumnByIndex n = .error "Index out range") ∧
    (1 ≤ n → n ≤ 702 → getColumnByIndex n = .ok (specBijectiveBase26 n.toNat)) ∧
    (∀ m : Int, 1 ≤ m → m ≤ 702 → 1 ≤ n → n ≤ 702 →
      getColumnByIndex m = getColumnByIndex n → m = n) := by
  have key : ∀ j : Int, 1 ≤ j → j ≤ 702 →
      getColumnByIndex j = .ok (specBijectiveBase26 j.toNat) := by
    intro j h1 h2
    have hj : j = Int.ofNat j.toNat :=
      (Int.toNat_of_nonneg (by omega : (0 : Int) ≤ j)).symm
    rw [hj]
    exact getColumnByIndex_agrees_below_703 j.toNat (by omega) (by omega)
  refine ⟨?_, key n, ?_⟩
  · intro h
    unfold getColumnByIndex
    rw [if_pos h]
  · intro m hm1 hm2 hn1 hn2 heq
    rw [key m hm1 hm2, key n hn1 hn2] at heq
    have hspec : specBijectiveBase26 m.toNat = specBijectiveBase26 n.toNat :=
      Except.ok.inj heq
    have := congrArg fromBijBase26 hspec
    rw [fromBijBase26_leftInverse m.toNat (by omega) (by omega),
        fromBijBase26_leftInverse n.toNat (by omega) (by omega)] at this
    omega

/-- C1 witness: the amended theorem applied at `n = -3` and `n = 27`. -/
theorem c1_getColumnByIndex_bijective_base26_witness :
    getColumnByIndex (-3) = .error "Index out range" ∧
    getColumnByIndex 27 = .ok "AA" :=
  ⟨(c1_getColumnByIndex_bijective_base26 (-3)).1 (by decide),
   by
     have h := (c1_getColumnByIndex_bijective_base26 27).2.1 (by decide) (by decide)
     simpa using h⟩

/-- C1 counterexample: the claim asserts the encoding is injective over all
`n ≥ 1`, but `703` and `729` (both `≥ 1` and distinct) produce the same string
(`"undefinedA"`, from the JS out-of-bounds table read). -/
theorem c1_counterexample :
    (1 : Int) ≤ 703 ∧ (1 : Int) ≤ 729 ∧ (703 : Int) ≠ 729 ∧
    getColumnByIndex 703 = getColumnByIndex 729 ∧
    getColumnByIndex 703 = .ok "undefinedA" := by
  refine ⟨by decide, by decide, by decide, by decide, by decide⟩

/-- A well-behaved grid-client oracle for concrete runs: `createSheet` returns
one fresh sheet with the service's default 1000×26 grid; reads return no rows. -/
def envDefault : Env :=
  { createSheetResult := fun t =>
      [{ title := t, sheetId := 1, rowCount := 1000, columnCount := 26 }],
    readDataResult := fun _ => [] }

/-- The record `{name: "a"}` of the spec's round-trip property. -/
def recNameA : Record := { fields := [("name", some "a")] }

/-- A store with an empty registry. -/
def emptyState : DbState := {}

/-- A pre-delete record at position `i` with a known old `_id`. -/
def c3OldRecord (i : Nat) : Record :=
  { fields := [("v", some (toString i))],
    _index := some (Int.ofNat i), _id := some ("old-" ++ toString i) }

/-- A materialized collection named `t` holding four records at positions 0–3. -/
def c3Collection : Collection :=
  { name := "t",
    sheet := some { title := "t", sheetId := 7, rowCount := 100, columnCount := 4 },
    columns := ["v"], column_map := [("v", 0)],
    data := [some (c3OldRecord 0), some (c3OldRecord 1),
             some (c3OldRecord 2), some (c3OldRecord 3)],
    initialized := true }

/-- A store holding exactly the four-record collection `t`. -/
def c3State : DbState := { collections := [c3Collection], uuidCounter := 100 }

/-- C2: the claim FAILS on the code (code bug).  Inserting `{name:"a"}` into a
fresh collection name succeeds remotely (sheet created and header-styled, row
written) and throws nothing, but `insertMany` never pushes the fresh collection
object into the registry, so the registry stays empty and the subsequent
match-all `find` on the same name returns `[]` instead of exactly one record
with `name = "a"`, `_index = 0` and a non-empty `_id`. -/
theorem c2_insert_then_find_returns_nothing :
    (insertOp envDefault emptyState "users" recNameA).result = .ok none ∧
    (insertOp envDefault emptyState "users" recNameA).state.collections = [] ∧
    (findOp envDefault (insertOp envDefault emptyState "users" recNameA).state
        "users" none).result = .ok [] :=
  ⟨rfl, rfl, rfl⟩

/-- C3: the claim FAILS on the code (code bug).  Deleting the records at
positions {1,3} out of 4 returns the removed count 2 and issues the remote row
removals in descending order, but the row cache afterwards still holds ALL
FOUR records — the loop splices the registry list `this.collections`, never
the collection's row cache — re-stamped `_index = 0..3` with fresh `_id`s,
not the claimed two surviving records re-indexed {0,1}. -/
theorem c3_delete_leaves_row_cache_unshortened :
    (deleteOp envDefault c3State "t" (fun _ i _ => i == 1 || i == 3)).result
      = .ok 2 ∧
    (deleteOp envDefault c3State "t" (fun _ i _ => i == 1 || i == 3)).events
      = [.remote (.removeRows 7 4 1), .remote (.removeRows 7 2 1),
         .cacheMutation "t"] ∧
    ((deleteOp envDefault c3State "t"
        (fun _ i _ => i == 1 || i == 3)).state.collections.headD default).data
      = [some { fields := [("v", some "0")], _index := some 0,
                _id := some "uuid-100" },
         some { fields := [("v", some "1")], _index := some 1,
                _id := some "uuid-101" },
         some { fields := [("v", some "2")], _index := some 2,
                _id := some "uuid-102" },
         some { fields := [("v", some "3")], _index := some 3,
                _id := some "uuid-103" }] :=
  ⟨rfl, rfl, rfl⟩

/-- C4: update's three guards fail immediately — a missing collection, a null
record, or a non-numeric `_index` each throw the corresponding usage error with
no remote call and no state change whatsoever. -/
theorem c4_update_guards_fail_fast (env : Env) (st : DbState) (name : String) :
    (∀ record, findCollection st.collections name = none →
        updateOp env st name record = ⟨st, [], .error "Collection not exists"⟩) ∧
    (∀ p c, findCollection st.collections name = some (p, c) →
        updateOp env st name none = ⟨st, [], .error "Invalid record"⟩) ∧
    (∀ p c r, findCollection st.collections name = some (p, c) →
        r._index = none →
        updateOp env st name (some r) = ⟨st, [], .error "Invalid index"⟩) := by
  refine ⟨?_, ?_, ?_⟩
  · intro record h
    simp [updateOp, h]
  · intro p c h
    simp [updateOp, h]
  · intro p c r h h2
    simp [updateOp, h, h2]

/-- C4 witness: the guard theorem applied to a missing name, a null record and
a record without numeric `_index`. -/
theorem c4_update_guards_fail_fast_witness :
    updateOp envDefault emptyState "missing" none
      = ⟨emptyState, [], .error "Collection not exists"⟩ ∧
    updateOp envDefault c3State "t" none = ⟨c3State, [], .error "Invalid record"⟩ ∧
    updateOp envDefault c3State "t" (some { fields := [("v", some "x")] })
      = ⟨c3State, [], .error "Invalid index"⟩ :=
  ⟨(c4_update_guards_fail_fast envDefault emptyState "missing").1 none rfl,
   (c4_update_guards_fail_fast envDefault c3State "t").2.1 0 c3Collection rfl,
   (c4_update_guards_fail_fast envDefault c3State "t").2.2 0 c3Collection
     { fields := [("v", some "x")] } rfl rfl⟩

/-- C9: on a collection name missing from the registry, `find` returns `[]`
and `delete` returns 0 — no error, no remote I/O, no state mutation — whereas
`update` and `refreshRecord` throw `Collection not exists`. -/
theorem c9_missing_collection_behaviour (env : Env) (st : DbState) (name : String)
    (predOpt : Option (Record → Nat → List (Option Record) → Bool))
    (pred : Record → Nat → List (Option Record) → Bool) (record : Option Record)
    (h : findCollection st.collections name = none) :
    findOp env st name predOpt = ⟨st, [], .ok []⟩ ∧
    deleteOp env st name pred = ⟨st, [], .ok 0⟩ ∧
    updateOp env st name record = ⟨st, [], .error "Collection not exists"⟩ ∧
    refreshRecordOp env st name record = ⟨st, [], .error "Collection not exists"⟩ := by
  refine ⟨?_, ?_, ?_, ?_⟩
  · simp [findOp, h]
  · simp [deleteOp, h]
  · simp [updateOp, h]
  · simp [refreshRecordOp, h]

/-- C9 witness: the theorem applied to the empty registry. -/
theorem c9_missing_collection_behaviour_witness :
    findOp envDefault emptyState "nope" none = ⟨emptyState, [], .ok []⟩ ∧
    deleteOp envDefault emptyState "nope" defaultPredicateFn
      = ⟨emptyState, [], .ok 0⟩ ∧
    updateOp envDefault emptyState "nope" (some recNameA)
      = ⟨emptyState, [], .error "Collection not exists"⟩ ∧
    refreshRecordOp envDefault emptyState "nope" (some recNameA)
      = ⟨emptyState, [], .error "Collection not exists"⟩ :=
  c9_missing_collection_behaviour envDefault emptyState "nope" none
    defaultPredicateFn (some recNameA) rfl

/-- `findCollection` reports a genuine registry slot: the returned collection
is exactly the list element at the returned position. -/
theorem findCollection_get? :
    ∀ (l : List Collection) (nm : String) (p : Nat) (c : Collection),
      findCollection l nm = some (p, c) → l[p]? = some c := by
  intro l
  induction l with
  | nil => intro nm p c h; simp [findCollection] at h
  | cons hd tl ih =>
    intro nm p c h
    unfold findCollection at h
    by_cases hbe : hd.name == nm
    · rw [if_pos hbe] at h
      injection h with h'
      have h1 : 0 = p := congrArg Prod.fst h'
      have h2 : hd = c := congrArg Prod.snd h'
      subst h1; subst h2
      simp
    · rw [if_neg hbe] at h
      cases hfc : findCollection tl nm with
      | none => rw [hfc] at h; simp at h
      | some q =>
        rw [hfc] at h
        simp only [Option.map_some'] at h
        injection h with h'
        have h1 : q.1 + 1 = p := congrArg Prod.fst h'
        have h2 : q.2 = c := congrArg Prod.snd h'
        subst h1; subst h2
        simpa using ih nm q.1 q.2 hfc

/-- Writing back the element already stored at a slot leaves the list as is. -/
theorem list_set_of_get? {α : Type} :
    ∀ (l : List α) (p : Nat) (a : α), l[p]? = some a → l.set p a = l := by
  intro l
  induction l with
  | nil => intro p a h; simp at h
  | cons hd tl ih =>
    intro p a h
    cases p with
    | zero =>
      simp at h
      simp [h]
    | succ n =>
      simp at h
      simp [ih n a h]

/-- `initCollection` is a no-op on an initialized collection. -/
theorem initCollection_initialized (env : Env) (c : Collection) (ctr : Nat)
    (h : c.initialized = true) : initCollection env c ctr = (.ok (c, ctr), []) := by
  simp [initCollection, h]

/-- C5: materialization is idempotent — on a collection whose `initialized`
flag is set, `initCollection` is a no-op, so `find`/`findOne` on such a
collection issue no remote call at all and leave the whole store state
(column index and row cache included) unchanged, returning the filtered
row cache. -/
theorem c5_materialization_idempotent (env : Env) (st : DbState) (name : String)
    (p : Nat) (c : Collection)
    (predOpt : Option (Record → Nat → List (Option Record) → Bool))
    (hfind : findCollection st.collections name = some (p, c))
    (hinit : c.initialized = true) :
    initCollection env c st.uuidCounter = (.ok (c, st.uuidCounter), []) ∧
    findOp env st name predOpt
      = ⟨st, [], .ok (jsFilter c.data (predOpt.getD defaultPredicateFn))⟩ ∧
    findOneOp env st name predOpt
      = ⟨st, [], .ok (jsFilter c.data (predOpt.getD defaultPredicateFn)).head?⟩ := by
  have hset : st.collections.set p c = st.collections :=
    list_set_of_get? _ _ _ (findCollection_get? _ _ _ _ hfind)
  have hf : findOp env st name predOpt
      = ⟨st, [], .ok (jsFilter c.data (predOpt.getD defaultPredicateFn))⟩ := by
    simp [findOp, hfind, initCollection_initialized env c st.uuidCounter hinit, hset]
  refine ⟨initCollection_initialized env c _ hinit, hf, ?_⟩
  simp [findOneOp, hf, Except.map]

/-- C5 witness: the idempotence theorem applied to the concrete initialized
four-record collection. -/
theorem c5_materialization_idempotent_witness :
    initCollection envDefault c3Collection c3State.uuidCounter
      = (.ok (c3Collection, c3State.uuidCounter), []) ∧
    findOp envDefault c3State "t" none
      = ⟨c3State, [],
         .ok (jsFilter c3Collection.data
            ((none : Option (Record → Nat → List (Option Record) → Bool)).getD
              defaultPredicateFn))⟩ ∧
    findOneOp envDefault c3State "t" none
      = ⟨c3State, [],
         .ok (jsFilter c3Collection.data
            ((none : Option (Record → Nat → List (Option Record) → Bool)).getD
              defaultPredicateFn)).head?⟩ :=
  c5_materialization_idempotent envDefault c3State "t" 0 c3Collection none rfl rfl

/-- The `records.forEach` projection loop appends exactly one row vector per
input record. -/
theorem processRecordsAux_values_length :
    ∀ (records : List Record) (acc : Collection × Bool × List (List CellValue)),
      (processRecordsAux acc records).2.2.length = acc.2.2.length + records.length := by
  intro records
  induction records with
  | nil => intro acc; simp [processRecordsAux]
  | cons x rest ih =>
    intro acc
    rw [processRecordsAux, ih]
    simp
    omega

/-- `insertManyCore` only ever returns the length of the projected row list,
i.e. the number of input records. -/
theorem insertManyCore_count (env : Env) (st : DbState) (pos : Option Nat)
    (c0 : Collection) (records : List Record) (st' : DbState) (ev : List Event)
    (n : Nat) (h : insertManyCore env st pos c0 records = ⟨st', ev, .ok n⟩) :
    n = records.length := by
  unfold insertManyCore at h
  split at h
  · injection h with h1 h2 h3
    exact absurd h3 (by simp)
  · dsimp only at h
    split at h
    · injection h with h1 h2 h3
      exact absurd h3 (by simp)
    · split at h
      · injection h with h1 h2 h3
        exact absurd h3 (by simp)
      · injection h with h1 h2 h3
        injection h3 with h4
        subst h4
        have := processRecordsAux_values_length records
        simp [processRecords, this]

/-- C6 (amended): `insertMany` returns the count of rows written, equal to the
number of input records, and empty input returns 0 with no remote I/O and no
state change; `insert`, however, has no return statement in the source and so
returns `undefined` (`none`), not the count. -/
theorem c6_insert_counts (env : Env) (st : DbState) (name : String)
    (records : List Record) (r : Record) :
    (records = [] → insertManyOp env st name records = ⟨st, [], .ok 0⟩) ∧
    (∀ st' ev n, insertManyOp env st name records = ⟨st', ev, .ok n⟩ →
      n = records.length) ∧
    (∀ st' ev v, insertOp env st name r = ⟨st', ev, .ok v⟩ → v = none) := by
  refine ⟨?_, ?_, ?_⟩
  · intro h
    subst h
    simp [insertManyOp]
  · intro st' ev n h
    unfold insertManyOp at h
    split at h
    · injection h with h1 h2 h3
      injection h3 with h4
      subst h4
      simpa using ‹records.length = 0›.symm
    · split at h
      · exact insertManyCore_count _ _ _ _ _ _ _ _ h
      · exact insertManyCore_count _ _ _ _ _ _ _ _ h
  · intro st' ev v h
    unfold insertOp at h
    injection h with h1 h2 h3
    cases hr : (insertManyOp env st name [r]).result with
    | error e => rw [hr] at h3; exact absurd h3 (by simp [Except.map])
    | ok m =>
      rw [hr] at h3
      simp [Except.map] at h3
      exact h3.symm

/-- C6 counterexample: one row is written — `insertMany` of the same single
record returns 1 — but `insert` returns no value at all (`undefined`), so
"insert returns the count of rows written" is false. -/
theorem c6_counterexample :
    (insertManyOp envDefault emptyState "users" [recNameA]).result = .ok 1 ∧
    (insertOp envDefault emptyState "users" recNameA).result = .ok none ∧
    (insertOp envDefault emptyState "users" recNameA).result ≠ .ok (some 1) :=
  ⟨rfl, rfl, by decide⟩

/-- C6 witness: the amended theorem applied to the empty input, to a
successful one-record `insertMany` run, and to a successful `insert` run. -/
theorem c6_insert_counts_witness :
    insertManyOp envDefault emptyState "users" ([] : List Record)
      = ⟨emptyState, [], .ok 0⟩ ∧
    (1 : Nat) = [recNameA].length ∧
    (none : Option Nat) = none :=
  ⟨(c6_insert_counts envDefault emptyState "users" [] recNameA).1 rfl,
   (c6_insert_counts envDefault emptyState "users" [recNameA] recNameA).2.1
     (insertManyOp envDefault emptyState "users" [recNameA]).state
     (insertManyOp envDefault emptyState "users" [recNameA]).events 1 rfl,
   (c6_insert_counts envDefault emptyState "users" [recNameA] recNameA).2.2
     (insertOp envDefault emptyState "users" recNameA).state
     (insertOp envDefault emptyState "users" recNameA).events none rfl⟩

/-- Concatenation is empty exactly when both halves are. -/
theorem isEmpty_append_bool {α : Type} (l1 l2 : List α) :
    (l1 ++ l2).isEmpty = (l1.isEmpty && l2.isEmpty) := by
  cases l1 <;> cases l2 <;> simp

/-- One step of the field loop: the column list only ever grows (by at most
the one new name), the header-resync flag latches, and the collection's name,
sheet, data and initialized flag are untouched. -/
theorem processFieldStep_spec (x : Record)
    (acc : Collection × Bool × List CellValue) (y : String) :
    ∃ ext, (processFieldStep x acc y).1.columns = acc.1.columns ++ ext ∧
      (processFieldStep x acc y).2.1 = (acc.2.1 || !ext.isEmpty) ∧
      (processFieldStep x acc y).1.data = acc.1.data ∧
      (processFieldStep x acc y).1.name = acc.1.name ∧
      (processFieldStep x acc y).1.sheet = acc.1.sheet ∧
      (processFieldStep x acc y).1.initialized = acc.1.initialized := by
  by_cases hmem : (assocFind acc.1.column_map y).isSome
  · exact ⟨[], by simp [processFieldStep, hmem]⟩
  · exact ⟨[y], by simp [processFieldStep, hmem]⟩

/-- The whole field loop: columns grow by some suffix, the flag is set iff it
was set or the suffix is non-empty, and the rest of the collection is
untouched. -/
theorem processFieldsAux_spec (x : Record) :
    ∀ (ys : List String) (acc : Collection × Bool × List CellValue),
      ∃ ext, (processFieldsAux x acc ys).1.columns = acc.1.columns ++ ext ∧
        (processFieldsAux x acc ys).2.1 = (acc.2.1 || !ext.isEmpty) ∧
        (processFieldsAux x acc ys).1.data = acc.1.data ∧
        (processFieldsAux x acc ys).1.name = acc.1.name ∧
        (processFieldsAux x acc ys).1.sheet = acc.1.sheet ∧
        (processFieldsAux x acc ys).1.initialized = acc.1.initialized := by
  intro ys
  induction ys with
  | nil => intro acc; exact ⟨[], by simp [processFieldsAux]⟩
  | cons y rest ih =>
    intro acc
    obtain ⟨e1, h1c, h1f, h1d, h1n, h1s, h1i⟩ := processFieldStep_spec x acc y
    obtain ⟨e2, h2c, h2f, h2d, h2n, h2s, h2i⟩ := ih (processFieldStep x acc y)
    refine ⟨e1 ++ e2, ?_, ?_, ?_, ?_, ?_, ?_⟩
    · rw [processFieldsAux, h2c, h1c, List.append_assoc]
    · rw [processFieldsAux, h2f, h1f, isEmpty_append_bool]
      simp [Bool.or_assoc]
    · rw [processFieldsAux, h2d, h1d]
    · rw [processFieldsAux, h2n, h1n]
    · rw [processFieldsAux, h2s, h1s]
    · rw [processFieldsAux, h2i, h1i]

/-- `processOneRecord`: columns grow by some suffix, the flag latches exactly
when a column was allocated, and nothing else of the collection changes. -/
theorem processOneRecord_spec (c : Collection) (flag : Bool) (x : Record) :
    ∃ ext, (processOneRecord c flag x).1.columns = c.columns ++ ext ∧
      (processOneRecord c flag x).2.1 = (flag || !ext.isEmpty) ∧
      (processOneRecord c flag x).1.data = c.data ∧
      (processOneRecord c flag x).1.name = c.name ∧
      (processOneRecord c flag x).1.sheet = c.sheet ∧
      (processOneRecord c flag x).1.initialized = c.initialized := by
  unfold processOneRecord
  exact processFieldsAux_spec x _ (c, flag, [])

/-- The records loop: same shape as `processOneRecord_spec`, cumulatively. -/
theorem processRecordsAux_spec :
    ∀ (records : List Record) (acc : Collection × Bool × List (List CellValue)),
      ∃ ext, (processRecordsAux acc records).1.columns = acc.1.columns ++ ext ∧
        (processRecordsAux acc records).2.1 = (acc.2.1 || !ext.isEmpty) ∧
        (processRecordsAux acc records).1.data = acc.1.data ∧
        (processRecordsAux acc records).1.name = acc.1.name ∧
        (processRecordsAux acc records).1.sheet = acc.1.sheet ∧
        (processRecordsAux acc records).1.initialized = acc.1.initialized := by
  intro records
  induction records with
  | nil => intro acc; exact ⟨[], by simp [processRecordsAux]⟩
  | cons x rest ih =>
    intro acc
    obtain ⟨e1, h1c, h1f, h1d, h1n, h1s, h1i⟩ := processOneRecord_spec acc.1 acc.2.1 x
    obtain ⟨e2, h2c, h2f, h2d, h2n, h2s, h2i⟩ :=
      ih ((processOneRecord acc.1 acc.2.1 x).1,
          (processOneRecord acc.1 acc.2.1 x).2.1,
          acc.2.2 ++ [(processOneRecord acc.1 acc.2.1 x).2.2])
    refine ⟨e1 ++ e2, ?_, ?_, ?_, ?_, ?_, ?_⟩
    · rw [processRecordsAux]
      try dsimp only
      rw [h2c, h1c, List.append_assoc]
    · rw [processRecordsAux]
      try dsimp only
      rw [h2f, h1f, isEmpty_append_bool]
      simp [Bool.or_assoc]
    · rw [processRecordsAux]
      try dsimp only
      rw [h2d, h1d]
    · rw [processRecordsAux]
      try dsimp only
      rw [h2n, h1n]
    · rw [processRecordsAux]
      try dsimp only
      rw [h2s, h1s]
    · rw [processRecordsAux]
      try dsimp only
      rw [h2i, h1i]

/-- `processRecords`: the resync flag is set iff at least one new column was
allocated, i.e. iff the column list changed. -/
theorem processRecords_spec (c : Collection) (records : List Record) :
    ∃ ext, (processRecords c records).1.columns = c.columns ++ ext ∧
      (processRecords c records).2.1 = !ext.isEmpty ∧
      (processRecords c records).1.data = c.data ∧
      (processRecords c records).1.name = c.name ∧
      (processRecords c records).1.sheet = c.sheet ∧
      (processRecords c records).1.initialized = c.initialized := by
  obtain ⟨ext, hc, hf, hd, hn, hs, hi⟩ := processRecordsAux_spec records (c, false, [])
  exact ⟨ext, hc, by simpa using hf, hd, hn, hs, hi⟩

/-- Every strictly positive column offset has a successful letter encoding
(the function only throws for offsets `≤ 0`). -/
theorem getColumnByIndex_pos_ok (n : Int) (h : 1 ≤ n) :
    ∃ s, getColumnByIndex n = .ok s := by
  unfold getColumnByIndex
  rw [if_neg (by omega)]
  by_cases h26 : n ≤ 26
  · rw [if_pos h26]
    exact ⟨_, rfl⟩
  · rw [if_neg h26]
    exact ⟨_, rfl⟩

/-- The success path of `update` on a materialized (initialized) collection
with at least one known column: the guards pass, materialization is a no-op,
the optional header resync and then the one-row data write at row
`_index + 2` are issued, the row-cache slot at `_index` is assigned per JS
array-index semantics (no bounds check of any kind), and `true` is returned —
for EVERY integer `_index`, negative ones included. -/
theorem updateOp_initialized_shape (env : Env) (st : DbState) (name : String)
    (p : Nat) (c : Collection) (r : Record) (k : Int)
    (hfind : findCollection st.collections name = some (p, c))
    (hinit : c.initialized = true)
    (hidx : r._index = some k)
    (hcols : c.columns ≠ []) :
    ∃ ce,
      getColumnByIndex (Int.ofNat (processOneRecord c false r).1.columns.length)
        = .ok ce ∧
      updateOp env st name (some r) =
        ⟨{ collections := st.collections.set p
             { (processOneRecord c false r).1 with
                 data := jsArraySetInt c.data k r },
           uuidCounter := st.uuidCounter },
         (if (processOneRecord c false r).2.1 then
            [.remote (.writeData
              (c.name ++ "!" ++ "A1" ++ ":" ++ (ce ++ "1"))
              [((processOneRecord c false r).1.columns.map (fun x =>
                  if x != "" && x.startsWith "_column_" then "" else x)).map some])]
          else []) ++
          [.remote (.writeData
             (c.name ++ "!" ++ ("A" ++ toString (k + 2)) ++ ":"
               ++ (ce ++ toString (1 + k + 1)))
             [(processOneRecord c false r).2.2]),
           .cacheMutation c.name],
         .ok true⟩ := by
  obtain ⟨ext, hc, hf, hd, hn, hs, hi⟩ := processOneRecord_spec c false r
  have hlenNat : 1 ≤ (processOneRecord c false r).1.columns.length := by
    rw [hc]
    cases hcc : c.columns with
    | nil => exact absurd hcc hcols
    | cons a t =>
      simp only [List.length_append, List.length_cons]
      omega
  have hlen : 1 ≤ Int.ofNat (processOneRecord c false r).1.columns.length :=
    Int.ofNat_le.mpr hlenNat
  obtain ⟨ce, hce⟩ := getColumnByIndex_pos_ok _ hlen
  refine ⟨ce, hce, ?_⟩
  unfold updateOp
  rw [hfind]
  dsimp only
  rw [hidx]
  dsimp only
  rw [initCollection_initialized env c st.uuidCounter hinit]
  dsimp only
  rw [hce]
  dsimp only
  cases hflag : (processOneRecord c false r).2.1 with
  | false =>
    simp [hd, hn]
  | true =>
    unfold syncHeaderCall
    rw [hce]
    simp [hd, hn]

/-- JS assignment at an in-bounds nonnegative index is a plain list `set`. -/
theorem jsArraySetInt_ofNat_lt {α : Type} (l : List (Option α)) (kn : Nat)
    (v : α) (hk : kn < l.length) :
    jsArraySetInt l (Int.ofNat kn) v = l.set kn (some v) := by
  unfold jsArraySetInt jsSparseSet
  rw [if_neg (show ¬Int.ofNat kn < 0 from Int.not_lt.mpr (Int.ofNat_nonneg kn))]
  rw [if_pos (show (Int.ofNat kn).toNat < l.length from hk)]
  rfl

/-- JS assignment past the end grows the array with holes up to the index. -/
theorem jsArraySetInt_ofNat_ge {α : Type} (l : List (Option α)) (kn : Nat)
    (v : α) (hk : l.length ≤ kn) :
    jsArraySetInt l (Int.ofNat kn) v
      = l ++ List.replicate (kn - l.length) none ++ [some v] ∧
    (jsArraySetInt l (Int.ofNat kn) v).length = kn + 1 := by
  have hshape : jsArraySetInt l (Int.ofNat kn) v
      = l ++ List.replicate (kn - l.length) none ++ [some v] := by
    unfold jsArraySetInt jsSparseSet
    rw [if_neg (show ¬Int.ofNat kn < 0 from Int.not_lt.mpr (Int.ofNat_nonneg kn))]
    by_cases hlt : (Int.ofNat kn).toNat < l.length
    · exact absurd (show kn < l.length from hlt) (by omega)
    · rw [if_neg hlt]
      rfl
  refine ⟨hshape, ?_⟩
  rw [hshape]
  simp only [List.length_append, List.length_replicate, List.length_cons,
    List.length_nil]
  omega

/-- JS assignment at a negative index never touches the array's elements. -/
theorem jsArraySetInt_neg {α : Type} (l : List (Option α)) (k : Int) (v : α)
    (hk : k < 0) : jsArraySetInt l k v = l := by
  unfold jsArraySetInt
  rw [if_pos hk]

/-- C8: frame property of a successful `update` on a materialized collection
addressing a known position `kn`: the row-cache slot at `kn` is replaced
wholesale by the given record, every other slot — hence every other record
and its `_index` — is untouched, and every other registry entry is untouched. -/
theorem c8_update_replaces_only_slot_k (env : Env) (st : DbState) (name : String)
    (p : Nat) (c : Collection) (r : Record) (kn : Nat)
    (hfind : findCollection st.collections name = some (p, c))
    (hinit : c.initialized = true)
    (hidx : r._index = some (Int.ofNat kn))
    (hk : kn < c.data.length)
    (hcols : c.columns ≠ []) :
    ∃ st' ev, updateOp env st name (some r) = ⟨st', ev, .ok true⟩ ∧
      ∃ c', st'.collections = st.collections.set p c' ∧
        c'.data = c.data.set kn (some r) ∧
        c'.data[kn]? = some (some r) ∧
        (∀ j, j ≠ kn → c'.data[j]? = c.data[j]?) ∧
        (∀ q, q ≠ p → st'.collections[q]? = st.collections[q]?) := by
  obtain ⟨ce, hce, hrun⟩ :=
    updateOp_initialized_shape env st name p c r (Int.ofNat kn) hfind hinit hidx hcols
  refine ⟨_, _, hrun, ?_⟩
  have hdata : jsArraySetInt c.data (Int.ofNat kn) r = c.data.set kn (some r) :=
    jsArraySetInt_ofNat_lt c.data kn r hk
  refine ⟨_, rfl, ?_, ?_, ?_, ?_⟩
  · exact hdata
  · dsimp only
    rw [hdata]
    exact List.getElem?_set_self (by simpa using hk)
  · intro j hj
    dsimp only
    rw [hdata]
    exact List.getElem?_set_ne (fun heq => hj heq.symm)
  · intro q hq
    dsimp only
    exact List.getElem?_set_ne (fun heq => hq heq.symm)

/-- The `update` record used in the C8 witness, addressing position 2. -/
def c8UpdRecord : Record := { fields := [("v", some "X")], _index := some 2 }

/-- C8 witness: the frame theorem applied to the concrete four-record
collection at position 2. -/
theorem c8_update_replaces_only_slot_k_witness :
    ∃ st' ev, updateOp envDefault c3State "t" (some c8UpdRecord)
        = ⟨st', ev, .ok true⟩ ∧
      ∃ c', st'.collections = c3State.collections.set 0 c' ∧
        c'.data = c3Collection.data.set 2 (some c8UpdRecord) ∧
        c'.data[2]? = some (some c8UpdRecord) ∧
        (∀ j, j ≠ 2 → c'.data[j]? = c3Collection.data[j]?) ∧
        (∀ q, q ≠ 0 → st'.collections[q]? = c3State.collections[q]?) :=
  c8_update_replaces_only_slot_k envDefault c3State "t" 0 c3Collection
    c8UpdRecord 2 rfl rfl rfl (by decide) (by decide)

/-- C10: `update` performs no bounds check on a numeric `_index`: for EVERY
integer `k` — negative or `≥` the row-cache length — on a materialized
collection with at least one column, the operation succeeds, issues the
remote write targeting the single row `k + 2` (so `k = -1` targets remote
row 1, the header row), and assigns the row-cache slot at `k` with JS
array-assignment semantics: a write at `k ≥ length` grows the cache with
holes to length `k + 1`, while a negative `k` is a non-index property
assignment leaving the row cache's elements unchanged. -/
theorem c10_update_no_bounds_check (env : Env) (st : DbState) (name : String)
    (p : Nat) (c : Collection) (r : Record) (k : Int)
    (hfind : findCollection st.collections name = some (p, c))
    (hinit : c.initialized = true)
    (hidx : r._index = some k)
    (hcols : c.columns ≠ []) :
    ∃ st' pre ce vals c',
      updateOp env st name (some r)
        = ⟨st', pre ++ [.remote (.writeData
             (c.name ++ "!" ++ ("A" ++ toString (k + 2)) ++ ":"
               ++ (ce ++ toString (1 + k + 1))) vals),
            .cacheMutation c.name], .ok true⟩ ∧
      st'.collections = st.collections.set p c' ∧
      c'.data = jsArraySetInt c.data k r ∧
      (k < 0 → c'.data = c.data) ∧
      (∀ kn : Nat, k = Int.ofNat kn → c.data.length ≤ kn →
        c'.data.length = kn + 1) := by
  obtain ⟨ce, hce, hrun⟩ :=
    updateOp_initialized_shape env st name p c r k hfind hinit hidx hcols
  refine ⟨_, _, ce, _, _, hrun, rfl, rfl, ?_, ?_⟩
  · intro hneg
    exact jsArraySetInt_neg _ _ _ hneg
  · intro kn hkn hlen
    subst hkn
    exact (jsArraySetInt_ofNat_ge c.data kn r hlen).2

/-- The `update` record used in the C10 witness, addressing position `-1`. -/
def c10UpdRecord : Record := { fields := [("v", some "X")], _index := some (-1) }

/-- C10 witness: the no-bounds-check theorem applied at `_index = -1`, whose
remote write targets remote row 1 — the header row. -/
theorem c10_update_no_bounds_check_witness :
    ∃ st' pre ce vals c',
      updateOp envDefault c3State "t" (some c10UpdRecord)
        = ⟨st', pre ++ [.remote (.writeData
             (c3Collection.name ++ "!" ++ ("A" ++ toString ((-1 : Int) + 2)) ++ ":"
               ++ (ce ++ toString (1 + (-1 : Int) + 1))) vals),
            .cacheMutation c3Collection.name], .ok true⟩ ∧
      st'.collections = c3State.collections.set 0 c' ∧
      c'.data = jsArraySetInt c3Collection.data (-1) c10UpdRecord ∧
      ((-1 : Int) < 0 → c'.data = c3Collection.data) ∧
      (∀ kn : Nat, (-1 : Int) = Int.ofNat kn → c3Collection.data.length ≤ kn →
        c'.data.length = kn + 1) :=
  c10_update_no_bounds_check envDefault c3State "t" 0 c3Collection
    c10UpdRecord (-1) rfl rfl rfl (by decide)

/-- An event that is neither a remote data/header write nor a row-cache
mutation (used to characterize everything a write is allowed to be preceded
by: sheet creation, header styling, range reads). -/
def isBenignEvent : Event → Bool
  | .remote (.writeData _ _) => false
  | .cacheMutation _ => false
  | _ => true

/-- Materialization emits at most one range read — never a write and never a
cache-mutation marker. -/
theorem getCollectionDataBySheet_benign (env : Env) (sheet : SheetProperty)
    (ctr : Nat) :
    ∀ e ∈ (getCollectionDataBySheet env sheet ctr).2, isBenignEvent e = true := by
  intro e he
  unfold getCollectionDataBySheet at he
  split at he
  · split at he
    · dsimp only at he
      split at he
      · simp at he
        subst he
        rfl
      · simp at he
        subst he
        rfl
    · simp at he
    · simp at he
  · simp at he

/-- `initCollection` emits at most one range read. -/
theorem initCollection_benign (env : Env) (c : Collection) (ctr : Nat) :
    ∀ e ∈ (initCollection env c ctr).2, isBenignEvent e = true := by
  intro e he
  unfold initCollection at he
  split at he
  · simp at he
  · split at he
    · simp at he
    · rename_i sheet hsheet
      have hb := getCollectionDataBySheet_benign env sheet ctr
      cases hres : getCollectionDataBySheet env sheet ctr with
      | mk res ev =>
        rw [hres] at he hb
        cases res with
        | error err =>
          dsimp only at he hb
          exact hb e he
        | ok q =>
          dsimp only at he hb
          exact hb e he

/-- The sheet-or-init step only ever emits sheet creation, header styling or
one range read — never a write and never a cache mutation. -/
theorem ensureSheetOrInit_benign (env : Env) (c : Collection) (ctr : Nat) :
    ∀ e ∈ (ensureSheetOrInit env c ctr).2, isBenignEvent e = true := by
  intro e he
  unfold ensureSheetOrInit at he
  split at he
  · split at he
    · simp at he
      subst he
      rfl
    · simp at he
      cases he with
      | inl h1 => subst h1; rfl
      | inr h1 => subst h1; rfl
  · exact initCollection_benign env c ctr e he

/-- The header-resync flag of the records loop is unset exactly when the
column list came out unchanged (no new column allocated). -/
theorem processRecords_flag_iff (c : Collection) (records : List Record) :
    (processRecords c records).2.1 = false ↔
      (processRecords c records).1.columns = c.columns := by
  obtain ⟨ext, hc, hf, _, _, _, _⟩ := processRecords_spec c records
  rw [hc, hf]
  cases ext <;> simp

/-- Single-record version of `processRecords_flag_iff` (the `update` path). -/
theorem processOneRecord_flag_iff (c : Collection) (x : Record) :
    (processOneRecord c false x).2.1 = false ↔
      (processOneRecord c false x).1.columns = c.columns := by
  obtain ⟨ext, hc, hf, _, _, _, _⟩ := processOneRecord_spec c false x
  rw [hc, hf]
  cases ext <;> simp

/-- Trace shape of a successful `insertManyCore` run: a benign prefix (sheet
creation/styling or one materialization read — no write, no cache mutation),
then the header row-1 write exactly when a new column was allocated, then the
data-range write, then the row-cache mutation, in that order. -/
theorem insertManyCore_trace_shape (env : Env) (st : DbState) (pos : Option Nat)
    (c0 : Collection) (records : List Record) (st' : DbState) (ev : List Event)
    (n : Nat) (h : insertManyCore env st pos c0 records = ⟨st', ev, .ok n⟩) :
    ∃ c1 ctr1 pre ce,
      ensureSheetOrInit env c0 st.uuidCounter = (.ok (c1, ctr1), pre) ∧
      (∀ e ∈ pre, isBenignEvent e = true) ∧
      getColumnByIndex
        (Int.ofNat (processRecords c1 records).1.columns.length) = .ok ce ∧
      ((processRecords c1 records).2.1 = false ↔
        (processRecords c1 records).1.columns = c1.columns) ∧
      ev = pre
        ++ (if (processRecords c1 records).2.1 then
              [.remote (.writeData
                ((processRecords c1 records).1.name ++ "!" ++ "A1" ++ ":"
                  ++ (ce ++ "1"))
                [((processRecords c1 records).1.columns.map (fun x =>
                    if x != "" && x.startsWith "_column_" then "" else x)).map
                  some])]
            else [])
        ++ [.remote (.writeData
              ((processRecords c1 records).1.name ++ "!"
                ++ ("A" ++ toString ((processRecords c1 records).1.data.length + 2))
                ++ ":"
                ++ (ce ++ toString ((processRecords c1 records).2.2.length
                      + (processRecords c1 records).1.data.length + 1)))
              (processRecords c1 records).2.2),
            .cacheMutation (processRecords c1 records).1.name] := by
  unfold insertManyCore at h
  split at h
  · injection h with h1 h2 h3
    exact absurd h3 (by simp)
  · rename_i q c1 ctr1 ev1 heq1
    dsimp only at h
    split at h
    · injection h with h1 h2 h3
      exact absurd h3 (by simp)
    · rename_i ce heq2
      split at h
      · injection h with h1 h2 h3
        exact absurd h3 (by simp)
      · rename_i hdrEvents heq3
        injection h with h1 h2 h3
        have hb := ensureSheetOrInit_benign env c0 st.uuidCounter
        rw [heq1] at hb
        refine ⟨c1, ctr1, ev1, ce, heq1, hb, heq2,
          processRecords_flag_iff c1 records, ?_⟩
        rw [← h2]
        cases hflag : (processRecords c1 records).2.1 with
        | false =>
          rw [hflag] at heq3
          rw [if_neg (by simp)] at heq3
          injection heq3 with heq3'
          rw [← heq3']
          simp
        | true =>
          rw [hflag] at heq3
          rw [if_pos rfl] at heq3
          unfold syncHeaderCall at heq3
          rw [heq2] at heq3
          injection heq3 with heq3'
          rw [← heq3']
          simp

/-- Trace shape of a successful `update` run: the guards passed, then a
benign materialization prefix (no write, no cache mutation), then the header
row-1 write exactly when the record carried a new field, then the one-row
data write at row `_index + 2`, then the row-cache mutation, in that order. -/
theorem updateOp_trace_shape (env : Env) (st : DbState) (name : String)
    (record : Option Record) (st' : DbState) (ev : List Event) (b : Bool)
    (h : updateOp env st name record = ⟨st', ev, .ok b⟩) :
    ∃ p c r k c1 ctr1 pre ce,
      findCollection st.collections name = some (p, c) ∧
      record = some r ∧ r._index = some k ∧
      initCollection env c st.uuidCounter = (.ok (c1, ctr1), pre) ∧
      (∀ e ∈ pre, isBenignEvent e = true) ∧
      getColumnByIndex
        (Int.ofNat (processOneRecord c1 false r).1.columns.length) = .ok ce ∧
      ((processOneRecord c1 false r).2.1 = false ↔
        (processOneRecord c1 false r).1.columns = c1.columns) ∧
      ev = pre
        ++ (if (processOneRecord c1 false r).2.1 then
              [.remote (.writeData
                ((processOneRecord c1 false r).1.name ++ "!" ++ "A1" ++ ":"
                  ++ (ce ++ "1"))
                [((processOneRecord c1 false r).1.columns.map (fun x =>
                    if x != "" && x.startsWith "_column_" then "" else x)).map
                  some])]
            else [])
        ++ [.remote (.writeData
              ((processOneRecord c1 false r).1.name ++ "!"
                ++ ("A" ++ toString (k + 2)) ++ ":"
                ++ (ce ++ toString (1 + k + 1)))
              [(processOneRecord c1 false r).2.2]),
            .cacheMutation (processOneRecord c1 false r).1.name] := by
  unfold updateOp at h
  split at h
  · injection h with h1 h2 h3
    exact absurd h3 (by simp)
  · rename_i p c hfind
    split at h
    · injection h with h1 h2 h3
      exact absurd h3 (by simp)
    · rename_i r
      split at h
      · injection h with h1 h2 h3
        exact absurd h3 (by simp)
      · rename_i k hidx
        split at h
        · injection h with h1 h2 h3
          exact absurd h3 (by simp)
        · rename_i q c1 ctr1 pre heqInit
          dsimp only at h
          split at h
          · injection h with h1 h2 h3
            exact absurd h3 (by simp)
          · rename_i ce heq2
            split at h
            · injection h with h1 h2 h3
              exact absurd h3 (by simp)
            · rename_i hdrEvents heq3
              injection h with h1 h2 h3
              have hb := initCollection_benign env c st.uuidCounter
              rw [heqInit] at hb
              refine ⟨p, c, r, k, c1, ctr1, pre, ce, hfind, rfl, hidx, heqInit,
                hb, heq2, processOneRecord_flag_iff c1 r, ?_⟩
              rw [← h2]
              cases hflag : (processOneRecord c1 false r).2.1 with
              | false =>
                rw [hflag] at heq3
                rw [if_neg (by simp)] at heq3
                injection heq3 with heq3'
                rw [← heq3']
                simp
              | true =>
                rw [hflag] at heq3
                rw [if_pos rfl] at heq3
                unfold syncHeaderCall at heq3
                rw [heq2] at heq3
                injection heq3 with heq3'
                rw [← heq3']
                simp

/-- C7: side-effect ordering of `insertMany` and `update`.  On every
successful run the emitted trace is a benign prefix (sheet creation/styling
or one materialization read — never a write, never a cache mutation),
followed by the full-width header row-1 rewrite EXACTLY when at least one new
column was allocated (the flag is unset iff the column list is unchanged),
followed by the data-range write, followed by the local row-cache mutation —
so the header write strictly precedes the data write, the cache mutation
strictly follows the completed data write, and with no new column no header
write is issued (the data write is the only write in the trace). -/
theorem c7_header_data_cache_ordering :
    (∀ env st name records st' ev n, records ≠ [] →
      insertManyOp env st name records = ⟨st', ev, .ok n⟩ →
      ∃ c0 c1 ctr1 pre ce,
        ensureSheetOrInit env c0 st.uuidCounter = (.ok (c1, ctr1), pre) ∧
        (∀ e ∈ pre, isBenignEvent e = true) ∧
        getColumnByIndex
          (Int.ofNat (processRecords c1 records).1.columns.length) = .ok ce ∧
        ((processRecords c1 records).2.1 = false ↔
          (processRecords c1 records).1.columns = c1.columns) ∧
        ev = pre
          ++ (if (processRecords c1 records).2.1 then
                [.remote (.writeData
                  ((processRecords c1 records).1.name ++ "!" ++ "A1" ++ ":"
                    ++ (ce ++ "1"))
                  [((processRecords c1 records).1.columns.map (fun x =>
                      if x != "" && x.startsWith "_column_" then "" else x)).map
                    some])]
              else [])
          ++ [.remote (.writeData
                ((processRecords c1 records).1.name ++ "!"
                  ++ ("A" ++ toString ((processRecords c1 records).1.data.length + 2))
                  ++ ":"
                  ++ (ce ++ toString ((processRecords c1 records).2.2.length
                        + (processRecords c1 records).1.data.length + 1)))
                (processRecords c1 records).2.2),
              .cacheMutation (processRecords c1 records).1.name]) ∧
    (∀ env st name record st' ev b,
      updateOp env st name record = ⟨st', ev, .ok b⟩ →
      ∃ p c r k c1 ctr1 pre ce,
        findCollection st.collections name = some (p, c) ∧
        record = some r ∧ r._index = some k ∧
        initCollection env c st.uuidCounter = (.ok (c1, ctr1), pre) ∧
        (∀ e ∈ pre, isBenignEvent e = true) ∧
        getColumnByIndex
          (Int.ofNat (processOneRecord c1 false r).1.columns.length) = .ok ce ∧
        ((processOneRecord c1 false r).2.1 = false ↔
          (processOneRecord c1 false r).1.columns = c1.columns) ∧
        ev = pre
          ++ (if (processOneRecord c1 false r).2.1 then
                [.remote (.writeData
                  ((processOneRecord c1 false r).1.name ++ "!" ++ "A1" ++ ":"
                    ++ (ce ++ "1"))
                  [((processOneRecord c1 false r).1.columns.map (fun x =>
                      if x != "" && x.startsWith "_column_" then "" else x)).map
                    some])]
              else [])
          ++ [.remote (.writeData
                ((processOneRecord c1 false r).1.name ++ "!"
                  ++ ("A" ++ toString (k + 2)) ++ ":"
                  ++ (ce ++ toString (1 + k + 1)))
                [(processOneRecord c1 false r).2.2]),
              .cacheMutation (processOneRecord c1 false r).1.name]) := by
  constructor
  · intro env st name records st' ev n hne hrun
    unfold insertManyOp at hrun
    rw [if_neg (fun hz => hne (List.length_eq_zero.mp hz))] at hrun
    cases hfc : findCollection st.collections name with
    | none =>
      rw [hfc] at hrun
      dsimp only at hrun
      obtain ⟨c1, ctr1, pre, ce, hshape⟩ :=
        insertManyCore_trace_shape _ _ _ _ _ _ _ _ hrun
      exact ⟨_, c1, ctr1, pre, ce, hshape⟩
    | some pc =>
      obtain ⟨p, c⟩ := pc
      rw [hfc] at hrun
      dsimp only at hrun
      obtain ⟨c1, ctr1, pre, ce, hshape⟩ :=
        insertManyCore_trace_shape _ _ _ _ _ _ _ _ hrun
      exact ⟨c, c1, ctr1, pre, ce, hshape⟩
  · intro env st name record st' ev b hrun
    exact updateOp_trace_shape env st name record st' ev b hrun

/-- The `update` record of the C7 witness: addresses position 0 and carries
the new field `w`, forcing a column allocation and hence a header resync. -/
def c7UpdRecord : Record := { fields := [("w", some "1")], _index := some 0 }

/-- C7 witness: the ordering theorem applied to a concrete successful
fresh-collection `insertMany` (which allocates the `name` column) and to a
concrete successful `update` carrying a new field (which allocates `w`). -/
theorem c7_header_data_cache_ordering_witness :
    (∃ c0 c1 ctr1 pre ce,
      ensureSheetOrInit envDefault c0 emptyState.uuidCounter
        = (.ok (c1, ctr1), pre) ∧
      (∀ e ∈ pre, isBenignEvent e = true) ∧
      getColumnByIndex
        (Int.ofNat (processRecords c1 [recNameA]).1.columns.length) = .ok ce ∧
      ((processRecords c1 [recNameA]).2.1 = false ↔
        (processRecords c1 [recNameA]).1.columns = c1.columns) ∧
      (insertManyOp envDefault emptyState "users" [recNameA]).events = pre
        ++ (if (processRecords c1 [recNameA]).2.1 then
              [.remote (.writeData
                ((processRecords c1 [recNameA]).1.name ++ "!" ++ "A1" ++ ":"
                  ++ (ce ++ "1"))
                [((processRecords c1 [recNameA]).1.columns.map (fun x =>
                    if x != "" && x.startsWith "_column_" then "" else x)).map
                  some])]
            else [])
        ++ [.remote (.writeData
              ((processRecords c1 [recNameA]).1.name ++ "!"
                ++ ("A" ++ toString ((processRecords c1 [recNameA]).1.data.length + 2))
                ++ ":"
                ++ (ce ++ toString ((processRecords c1 [recNameA]).2.2.length
                      + (processRecords c1 [recNameA]).1.data.length + 1)))
              (processRecords c1 [recNameA]).2.2),
            .cacheMutation (processRecords c1 [recNameA]).1.name]) ∧
    (∃ p c r k c1 ctr1 pre ce,
      findCollection c3State.collections "t" = some (p, c) ∧
      some c7UpdRecord = some r ∧ r._index = some k ∧
      initCollection envDefault c c3State.uuidCounter = (.ok (c1, ctr1), pre) ∧
      (∀ e ∈ pre, isBenignEvent e = true) ∧
      getColumnByIndex
        (Int.ofNat (processOneRecord c1 false r).1.columns.length) = .ok ce ∧
      ((processOneRecord c1 false r).2.1 = false ↔
        (processOneRecord c1 false r).1.columns = c1.columns) ∧
      (updateOp envDefault c3State "t" (some c7UpdRecord)).events = pre
        ++ (if (processOneRecord c1 false r).2.1 then
              [.remote (.writeData
                ((processOneRecord c1 false r).1.name ++ "!" ++ "A1" ++ ":"
                  ++ (ce ++ "1"))
                [((processOneRecord c1 false r).1.columns.map (fun x =>
                    if x != "" && x.startsWith "_column_" then "" else x)).map
                  some])]
            else [])
        ++ [.remote (.writeData
              ((processOneRecord c1 false r).1.name ++ "!"
                ++ ("A" ++ toString (k + 2)) ++ ":"
                ++ (ce ++ toString (1 + k + 1)))
              [(processOneRecord c1 false r).2.2]),
            .cacheMutation (processOneRecord c1 false r).1.name]) :=
  ⟨c7_header_data_cache_ordering.1 envDefault emptyState "users" [recNameA]
      (insertManyOp envDefault emptyState "users" [recNameA]).state
      (insertManyOp envDefault emptyState "users" [recNameA]).events 1
      (by decide) rfl,
   c7_header_data_cache_ordering.2 envDefault c3State "t" (some c7UpdRecord)
      (updateOp envDefault c3State "t" (some c7UpdRecord)).state
      (updateOp envDefault c3State "t" (some c7UpdRecord)).events true rfl⟩
